import Mathlib

/-!
Verification development for the Starlay pool accounting engine
(`src/logics/impls/pool.rs`).

The Rust source is shallowly embedded: machine integers (`u64` timestamps,
`u128` balances, `U256` mantissas) become `Nat` with explicit range checks
where the Rust code would trap (checked arithmetic / `as_u128` / division by
zero / `unwrap` on an external failure), fallible computations return
`Option` (with `none` standing for a trap that reverts the transaction) or
`Except` where the Rust code returns `Result`.  External collaborators
(controller policy decisions, the underlying PSP22 token, the rate model,
the peer pool) are passed in as explicit parameters, since the pool only
consumes their answers.
-/

namespace Starlay

/-- Scale factor of 18-decimal fixed-point mantissas (`10^18`). -/
def expScale : Nat := 10 ^ 18

/-- Largest value representable as a `u128` (`Balance`). -/
def u128Max : Nat := 2 ^ 128 - 1

/-- Largest value representable as a `U256` mantissa. -/
def u256Max : Nat := 2 ^ 256 - 1

/-- `Timestamp::abs_diff` on unsigned integers. -/
def tsAbsDiff (a b : Nat) : Nat := max a b - min a b

/-- Fixed-point scalar: an unsigned mantissa scaled by `10^18`
(`exp_no_err::Exp` wrapping a `WrappedU256`). -/
structure Exp where
  mantissa : Nat
deriving DecidableEq, Repr

/-- Modelled from the spec: `exp_no_err.rs` is not part of the provided
sources.  `Exp::mul_mantissa` multiplies the mantissa by a plain scalar
without rescaling (spec 4.1 step 2 together with the exactness equations of
the in-source unit test `test_calculate_interest`, which expects a single
truncation by `10^18` across steps 2-3). -/
def Exp.mul_mantissa (e : Exp) (x : Nat) : Exp :=
  ⟨e.mantissa * x⟩

/-- Modelled from the spec: truncating fixed-point multiply of a scalar
against an integer balance, producing an integer (spec 3 and 4.1 step 3:
multiply, then floor away the low-order 18 decimal digits). -/
def Exp.mul_scalar_truncate (e : Exp) (y : Nat) : Nat :=
  e.mantissa * y / expScale

/-- Modelled from the spec: truncating multiply followed by a mantissa-exact
addition (spec 4.1 steps 5-6: truncate before the add). -/
def Exp.mul_scalar_truncate_add_uint (e : Exp) (y a : Nat) : Nat :=
  Exp.mul_scalar_truncate e y + a

/-- `borrow_rate_max_mantissa()`: `10^16 * 5 / 1000`. -/
def borrow_rate_max_mantissa : Nat := 10 ^ 16 * 5 / 1000

/-- Input of `calculate_interest` (`CalculateInterestInput`). -/
structure CalculateInterestInput where
  total_borrows : Nat
  total_reserves : Nat
  borrow_index : Exp
  borrow_rate : Nat
  old_block_timestamp : Nat
  new_block_timestamp : Nat
  reserve_factor : Nat
deriving DecidableEq, Repr

/-- Output of `calculate_interest` (`CalculateInterestOutput`). -/
structure CalculateInterestOutput where
  borrow_index : Exp
  total_borrows : Nat
  total_reserves : Nat
  interest_accumulated : Nat
deriving DecidableEq, Repr

/-- The two distinguishable fatal (trapping) outcomes of
`calculate_interest`: the explicit absurd-borrow-rate guard, and the
checked-arithmetic traps (`as_u128` on an oversized value, `u128` addition
overflow, `U256` multiplication/addition overflow). -/
inductive Fatal
  | absurdRate
  | overflow
deriving DecidableEq, Repr

/-- `calculate_interest`: the pure accrual computation.  The guard fires
first; afterwards every narrowing (`as_u128`) and every checked addition or
`U256` multiplication that can overflow for representable Rust inputs is an
explicit `overflow` outcome. -/
def calculate_interest (i : CalculateInterestInput) :
    Except Fatal CalculateInterestOutput :=
  if borrow_rate_max_mantissa < i.borrow_rate then .error .absurdRate
  else
    let delta := tsAbsDiff i.new_block_timestamp i.old_block_timestamp
    let sif : Exp := Exp.mul_mantissa ⟨i.borrow_rate⟩ delta
    let interest : Nat := Exp.mul_scalar_truncate sif i.total_borrows
    if u128Max < interest then .error .overflow
    else if u128Max < interest + i.total_borrows then .error .overflow
    else if u256Max < i.reserve_factor * interest then .error .overflow
    else
      let trn := Exp.mul_scalar_truncate_add_uint ⟨i.reserve_factor⟩ interest
        i.total_reserves
      if u128Max < trn then .error .overflow
      else if u256Max < sif.mantissa * i.borrow_index.mantissa then
        .error .overflow
      else
        let bin := Exp.mul_scalar_truncate_add_uint sif i.borrow_index.mantissa
          i.borrow_index.mantissa
        if u256Max < bin then .error .overflow
        else
          .ok { borrow_index := ⟨bin⟩
                total_borrows := interest + i.total_borrows
                total_reserves := trn
                interest_accumulated := interest }

/-- A borrower's stored snapshot (`BorrowSnapshot`). -/
structure BorrowSnapshot where
  principal : Nat
  interest_index : Nat
deriving DecidableEq, Repr

/-- The pool's persistent storage struct (`Data`); account identities are
abstracted as `Nat`, the `Mapping` as a total function into `Option`. -/
structure Data where
  underlying : Nat
  controller : Nat
  rate_model : Nat
  total_borrows : Nat
  total_reserves : Nat
  account_borrows : Nat → Option BorrowSnapshot
  accural_block_timestamp : Nat
  borrow_index : Nat
  reserve_factor : Nat

/-- `Data::default()`: every numeric field zero, `borrow_index` and
`reserve_factor` set to `U256::zero()`, addresses to `ZERO_ADDRESS`. -/
def Data.default : Data :=
  { underlying := 0
    controller := 0
    rate_model := 0
    total_borrows := 0
    total_reserves := 0
    account_borrows := fun _ => none
    accural_block_timestamp := 0
    borrow_index := 0
    reserve_factor := 0 }

/-- The recoverable error taxonomy of the pool (`Error`). -/
inductive Error
  | AccrualBlockNumberIsNotFresh
  | InvalidParameter
  | RedeemTransferOutNotPossible
  | BorrowCashNotAvailable
  | LiquidateLiquidatorIsBorrower
  | LiquidateCloseAmountIsZero
  | LiquidateSeizeLiquidatorIsBorrower
deriving DecidableEq, Repr

/-- Events emitted by the pool; `seizeCallEv` records the outbound
cross-pool `PoolRef::seize` call made during a delegated liquidation. -/
inductive Event
  | accrueInterestEv (interest newIndex newTotalBorrows : Nat)
  | mintEv (minter amount tokens : Nat)
  | redeemEv (redeemer amount tokens : Nat)
  | borrowEv (borrower amount accountBorrows totalBorrows : Nat)
  | repayBorrowEv (payer borrower amount accountBorrows totalBorrows : Nat)
  | liquidateBorrowEv (liquidator borrower repay collateral seizeTokens : Nat)
  | reservesAddedEv (benefactor amount newTotalReserves : Nat)
  | seizeCallEv (liquidator borrower seizeTokens : Nat)
deriving DecidableEq, Repr

/-- Observable pool state: the ledger fields of `Data` that the operations
mutate, the pool's own PSP22 claim-token ledger, and the event trace. -/
structure State where
  total_borrows : Nat
  total_reserves : Nat
  account_borrows : Nat → Option BorrowSnapshot
  accural_block_timestamp : Nat
  borrow_index : Nat
  reserve_factor : Nat
  claim_balances : Nat → Nat
  claim_supply : Nat
  events : List Event

/-- Pointwise update of an account-indexed map (`Mapping::insert`). -/
def setSnap (m : Nat → Option BorrowSnapshot) (k : Nat) (v : BorrowSnapshot) :
    Nat → Option BorrowSnapshot :=
  fun a => if a = k then some v else m a

/-- Pointwise update of a balance map. -/
def setBal (m : Nat → Nat) (k : Nat) (v : Nat) : Nat → Nat :=
  fun a => if a = k then v else m a

/-- PSP22 `_mint_to` on the pool's own claim token: checked additions to the
recipient balance and total supply. -/
def mint_to (s : State) (account amount : Nat) : Option State :=
  if u128Max < s.claim_balances account + amount then none
  else if u128Max < s.claim_supply + amount then none
  else some { s with
    claim_balances := setBal s.claim_balances account
      (s.claim_balances account + amount)
    claim_supply := s.claim_supply + amount }

/-- PSP22 `_burn_from` on the pool's own claim token: the library returns
`InsufficientBalance` when the balance is too small, which the pool
immediately `unwrap`s into a trap. -/
def burn_from (s : State) (account amount : Nat) : Option State :=
  if s.claim_balances account < amount then none
  else if s.claim_supply < amount then none
  else some { s with
    claim_balances := setBal s.claim_balances account
      (s.claim_balances account - amount)
    claim_supply := s.claim_supply - amount }

/-- `_borrow_balance_stored`: current debt derived from the snapshot as
`principal * borrow_index / interest_index` in `U256`, narrowed back to
`u128`; `none` marks the `U256` multiplication overflow, division by a zero
recorded index, and `as_u128` traps. -/
def _borrow_balance_stored (s : State) (account : Nat) : Option Nat :=
  match s.account_borrows account with
  | none => some 0
  | some snap =>
    if snap.principal = 0 then some 0
    else if u256Max < snap.principal * s.borrow_index then none
    else if snap.interest_index = 0 then none
    else
      let v := snap.principal * s.borrow_index / snap.interest_index
      if u128Max < v then none else some v

/-- `_accure_interest_at`: short-circuits when the stored accrual timestamp
already equals `t`, otherwise runs `calculate_interest` against the current
rate-model answer `rate` and commits all four outputs. -/
def _accure_interest_at (rate t : Nat) (s : State) : Option State :=
  if s.accural_block_timestamp = t then some s
  else
    match calculate_interest
      { total_borrows := s.total_borrows
        total_reserves := s.total_reserves
        borrow_index := ⟨s.borrow_index⟩
        borrow_rate := rate
        old_block_timestamp := s.accural_block_timestamp
        new_block_timestamp := t
        reserve_factor := s.reserve_factor } with
    | .error _ => none
    | .ok o => some { s with
        accural_block_timestamp := t
        borrow_index := o.borrow_index.mantissa
        total_borrows := o.total_borrows
        total_reserves := o.total_reserves
        events := Event.accrueInterestEv o.interest_accumulated
          o.borrow_index.mantissa o.total_borrows :: s.events }

/-- `_mint`: controller approval (`unwrap`, so a denial traps), freshness
guard, inbound pull transfer of the underlying (trap on failure), then the
1:1 claim-token credit and the Mint event. -/
def _mint (allowed : Bool) (now : Nat) (transferOk : Bool)
    (minter amount : Nat) (s : State) : Option (Except Error Unit × State) :=
  if allowed = false then none
  else if s.accural_block_timestamp ≠ now then
    some (.error .AccrualBlockNumberIsNotFresh, s)
  else if transferOk = false then none
  else
    match mint_to s minter amount with
    | none => none
    | some s1 =>
      some (.ok (), { s1 with events := Event.mintEv minter amount amount :: s1.events })

/-- Shared tail of `_redeem` after the selector match has produced the
token count and the underlying amount: approval, liquidity guard, burn,
outbound transfer, Redeem event. -/
def _redeem_core (allowed : Bool) (cash : Nat) (transferOk : Bool)
    (redeemer redeemTokens redeemAmount : Nat) (s : State) :
    Option (Except Error Unit × State) :=
  if allowed = false then none
  else if cash < redeemAmount then
    some (.error .RedeemTransferOutNotPossible, s)
  else
    match burn_from s redeemer redeemTokens with
    | none => none
    | some s1 =>
      if transferOk = false then none
      else
        some (.ok (),
          { s1 with events := Event.redeemEv redeemer redeemAmount redeemTokens :: s1.events })

/-- `_redeem`: the selector match (`tokens_in` wins when positive, then
`amount_in`, otherwise `InvalidParameter`), at the placeholder exchange
rate of 1. -/
def _redeem (allowed : Bool) (cash : Nat) (transferOk : Bool)
    (redeemer tokensIn amountIn : Nat) (s : State) :
    Option (Except Error Unit × State) :=
  let exchangeRate := 1
  if 0 < tokensIn then
    _redeem_core allowed cash transferOk redeemer tokensIn
      (tokensIn * exchangeRate) s
  else if 0 < amountIn then
    _redeem_core allowed cash transferOk redeemer (amountIn / exchangeRate)
      amountIn s
  else some (.error .InvalidParameter, s)

/-- `_borrow`: approval, freshness, liquidity, then the snapshot and
`total_borrows` updates (checked `u128` additions), the outbound transfer
and the Borrow event. -/
def _borrow (allowed : Bool) (now cash : Nat) (transferOk : Bool)
    (borrower amount : Nat) (s : State) : Option (Except Error Unit × State) :=
  if allowed = false then none
  else if s.accural_block_timestamp ≠ now then
    some (.error .AccrualBlockNumberIsNotFresh, s)
  else if cash < amount then some (.error .BorrowCashNotAvailable, s)
  else
    match _borrow_balance_stored s borrower with
    | none => none
    | some prev =>
      if u128Max < prev + amount then none
      else if u128Max < s.total_borrows + amount then none
      else if transferOk = false then none
      else
        some (.ok (), { s with
          account_borrows := setSnap s.account_borrows borrower
            ⟨prev + amount, s.borrow_index⟩
          total_borrows := s.total_borrows + amount
          events := Event.borrowEv borrower amount (prev + amount)
            (s.total_borrows + amount) :: s.events })

/-- Tail of `_repay_borrow` once the effective repay amount is fixed: the
inbound pull transfer, then the snapshot and `total_borrows` updates; the
two `u128` subtractions trap on underflow. -/
def _repay_borrow_tail (transferOk : Bool) (payer borrower : Nat)
    (prev finalAmount : Nat) (s : State) :
    Option (Except Error Nat × State) :=
  if transferOk = false then none
  else if prev < finalAmount then none
  else if s.total_borrows < finalAmount then none
  else
    some (.ok finalAmount, { s with
      account_borrows := setSnap s.account_borrows borrower
        ⟨prev - finalAmount, s.borrow_index⟩
      total_borrows := s.total_borrows - finalAmount
      events := Event.repayBorrowEv payer borrower finalAmount
        (prev - finalAmount) (s.total_borrows - finalAmount) :: s.events })

/-- `_repay_borrow`: approval, freshness, the `u128::MAX` repay-all
sentinel selecting the effective amount, then the shared tail. -/
def _repay_borrow (allowed : Bool) (now : Nat) (transferOk : Bool)
    (payer borrower amount : Nat) (s : State) :
    Option (Except Error Nat × State) :=
  if allowed = false then none
  else if s.accural_block_timestamp ≠ now then
    some (.error .AccrualBlockNumberIsNotFresh, s)
  else
    match _borrow_balance_stored s borrower with
    | none => none
    | some prev =>
      _repay_borrow_tail transferOk payer borrower prev
        (if amount = u128Max then prev else amount) s

/-- `_seize`: approval, the self-liquidation guard, then the zero-for-now
protocol share, the reserve add, the burn from the borrower and the mint to
the liquidator, and the ReservesAdded event (benefactor is the pool
itself, abstracted as `seizer`). -/
def _seize (allowed : Bool) (seizer liquidator borrower seizeTokens : Nat)
    (s : State) : Option (Except Error Unit × State) :=
  if allowed = false then none
  else if liquidator = borrower then
    some (.error .LiquidateSeizeLiquidatorIsBorrower, s)
  else
    let protocolSeizeToken := 0
    let liquidatorSeizeToken := seizeTokens - protocolSeizeToken
    let exchangeRate := 1
    let protocolSeizeAmount := protocolSeizeToken * exchangeRate
    if u128Max < s.total_reserves + protocolSeizeAmount then none
    else
      match burn_from
        { s with total_reserves := s.total_reserves + protocolSeizeAmount }
        borrower seizeTokens with
      | none => none
      | some s2 =>
        match mint_to s2 liquidator liquidatorSeizeToken with
        | none => none
        | some s3 =>
          some (.ok (), { s3 with
            events := Event.reservesAddedEv seizer protocolSeizeAmount
              (s.total_reserves + protocolSeizeAmount) :: s3.events })

/-- `_liquidate_borrow`: approval, this pool's freshness, the collateral
pool's freshness, the two liquidation guards, the internal repay on behalf
of the liquidator (`unwrap`, so an inner error traps), then seizure with
the hard-coded amount 0 — locally via `_seize` when the collateral is this
pool, otherwise delegated to the peer (recorded as a `seizeCallEv`) — and
the LiquidateBorrow event. -/
def _liquidate_borrow (liqAllowed repayAllowed seizeAllowed : Bool)
    (now collateralTs : Nat) (transferOk : Bool)
    (liquidator borrower repayAmount : Nat)
    (selfCollateral : Bool) (collateral : Nat) (peerSeizeOk : Bool)
    (s : State) : Option (Except Error Unit × State) :=
  if liqAllowed = false then none
  else if s.accural_block_timestamp ≠ now then
    some (.error .AccrualBlockNumberIsNotFresh, s)
  else if collateralTs ≠ now then
    some (.error .AccrualBlockNumberIsNotFresh, s)
  else if liquidator = borrower then
    some (.error .LiquidateLiquidatorIsBorrower, s)
  else if repayAmount = 0 then some (.error .LiquidateCloseAmountIsZero, s)
  else
    match _repay_borrow repayAllowed now transferOk liquidator borrower
      repayAmount s with
    | none => none
    | some (.error _, _) => none
    | some (.ok actual, s1) =>
      if selfCollateral then
        match _seize seizeAllowed collateral liquidator borrower 0 s1 with
        | none => none
        | some (.error _, _) => none
        | some (.ok _, s2) =>
          some (.ok (), { s2 with
            events := Event.liquidateBorrowEv liquidator borrower actual
              collateral 0 :: s2.events })
      else if peerSeizeOk = false then none
      else
        some (.ok (), { s1 with
          events := Event.liquidateBorrowEv liquidator borrower actual
            collateral 0 :: Event.seizeCallEv liquidator borrower 0 :: s1.events })

/-- One call into the pool ledger state machine, with the answers of the
external collaborators (controller verdicts, pool cash, transfer outcomes,
peer-pool timestamp) carried as arguments. -/
inductive PoolOp
  | mint (allowed : Bool) (now : Nat) (transferOk : Bool) (minter amount : Nat)
  | redeem (allowed : Bool) (cash : Nat) (transferOk : Bool)
      (redeemer tokensIn amountIn : Nat)
  | borrow (allowed : Bool) (now cash : Nat) (transferOk : Bool)
      (borrower amount : Nat)
  | repay (allowed : Bool) (now : Nat) (transferOk : Bool)
      (payer borrower amount : Nat)
  | liquidate (liqAllowed repayAllowed seizeAllowed : Bool)
      (now collateralTs : Nat) (transferOk : Bool)
      (liquidator borrower repayAmount : Nat)
      (selfCollateral : Bool) (collateral : Nat) (peerSeizeOk : Bool)
  | seize (allowed : Bool) (seizer liquidator borrower tokens : Nat)

/-- Dispatch a `PoolOp` to the corresponding internal operation, erasing the
repay return value so that all six share one result type. -/
def runOp (c : PoolOp) (s : State) : Option (Except Error Unit × State) :=
  match c with
  | .mint a n t m amt => _mint a n t m amt s
  | .redeem a cash t r ti ai => _redeem a cash t r ti ai s
  | .borrow a n cash t b amt => _borrow a n cash t b amt s
  | .repay a n t p b amt =>
    (_repay_borrow a n t p b amt s).map fun pr => (pr.1.map fun _ => (), pr.2)
  | .liquidate la ra sa n cts t l b amt sc coll pk =>
    _liquidate_borrow la ra sa n cts t l b amt sc coll pk s
  | .seize a sz l b tok => _seize a sz l b tok s

/-- A step of the whole machine: either an accrual (`_accure_interest_at`)
or one of the six ledger operations. -/
inductive Step
  | accrue (rate t : Nat)
  | op (c : PoolOp)

/-- Run one step, keeping only the resulting state. -/
def runStep (st : Step) (s : State) : Option State :=
  match st with
  | .accrue rate t => _accure_interest_at rate t s
  | .op c => (runOp c s).map Prod.snd

/-- A plain well-formed pool state used to instantiate theorems: fresh at
timestamp 0, borrow index one (mantissa `10^18`), no borrowers. -/
def baseState : State :=
  { total_borrows := 10
    total_reserves := 0
    account_borrows := fun _ => none
    accural_block_timestamp := 0
    borrow_index := 10 ^ 18
    reserve_factor := 0
    claim_balances := fun _ => 10
    claim_supply := 100
    events := [] }

/-- A state whose borrow index (2.0) has moved past the index recorded in
account 7's snapshot (1.0): account 7's stored principal is 1 but its
current debt is 2. -/
def snapState : State :=
  { baseState with
    account_borrows := fun a => if a = 7 then some ⟨1, 10 ^ 18⟩ else none
    borrow_index := 2 * 10 ^ 18
    total_borrows := 100 }

/-- A state whose accrual timestamp (5) is behind the block timestamp used
by the sample calls (6). -/
def staleState : State :=
  { baseState with accural_block_timestamp := 5 }

/-- A state where account 7 has a fresh snapshot of principal 2. -/
def debtState : State :=
  { baseState with
    account_borrows := fun a => if a = 7 then some ⟨2, 10 ^ 18⟩ else none
    total_borrows := 10 }

/-- An accrual input with a borrow rate of `10^14`: above the implemented
ceiling `5 * 10^13`, yet not above the ceiling `5 * 10^14` stated by the
spec. -/
def hotRateInput : CalculateInterestInput :=
  { total_borrows := 0
    total_reserves := 0
    borrow_index := ⟨10 ^ 18⟩
    borrow_rate := 10 ^ 14
    old_block_timestamp := 0
    new_block_timestamp := 0
    reserve_factor := 0 }

/-- A no-elapsed-time accrual input within every bound. -/
def idleInput : CalculateInterestInput :=
  { total_borrows := 123
    total_reserves := 45
    borrow_index := ⟨10 ^ 18⟩
    borrow_rate := 10 ^ 13
    old_block_timestamp := 9
    new_block_timestamp := 9
    reserve_factor := 10 ^ 16 }

/-- A small accrual input with one unit of elapsed time. -/
def tickInput : CalculateInterestInput :=
  { total_borrows := 10 ^ 18
    total_reserves := 0
    borrow_index := ⟨10 ^ 18⟩
    borrow_rate := 1
    old_block_timestamp := 0
    new_block_timestamp := 1
    reserve_factor := 0 }

/-- The state a sample operation ends in, for writing closed witnesses:
the second component of a successful run, with a fallback default. -/
def outState (r : Option (Except Error Unit × State)) (dflt : State) : State :=
  (r.map Prod.snd).getD dflt

/-- The state a sample repay ends in. -/
def outStateRepay (r : Option (Except Error Nat × State)) (dflt : State) :
    State :=
  (r.map Prod.snd).getD dflt

/-- The state a sample step ends in. -/
def stepOut (st : Step) (s : State) : State :=
  (runStep st s).getD s

/-- The state after a sample successful local-collateral liquidation on
`snapState` (liquidator 1 repays 1 of borrower 7's debt). -/
def liqOut : State :=
  outState (_liquidate_borrow true true true 0 0 true 1 7 1 true 0 true
    snapState) snapState

/-- The state after a sample borrow of 5 by account 4 on `baseState`. -/
def rtState1 : State :=
  outState (_borrow true 0 100 true 4 5 baseState) baseState

/-- The state after account 4 then repays the same 5. -/
def rtState2 : State :=
  outStateRepay (_repay_borrow true 0 true 4 4 5 rtState1) rtState1

/-- The state after account 7 of `snapState` borrows 1. -/
def cexState1 : State :=
  outState (_borrow true 0 50 true 7 1 snapState) snapState

/-- The state after account 7 then repays the same 1. -/
def cexState2 : State :=
  outStateRepay (_repay_borrow true 0 true 7 7 1 cexState1) cexState1

theorem borrow_rate_max_mantissa_eq : borrow_rate_max_mantissa = 5 * 10 ^ 13 := by
  decide

/-- C2 (counterexample): the input `hotRateInput` has a borrow rate of
`10^14`, within the claimed ceiling `5 * 10^14`, yet `calculate_interest`
deterministically takes the fatal absurd-rate path on it. -/
theorem calculate_interest_claimed_ceiling_cex :
    hotRateInput.borrow_rate ≤ 5 * 10 ^ 14 ∧
    calculate_interest hotRateInput = Except.error Fatal.absurdRate :=
  ⟨by decide, rfl⟩

/-- C2 (amended): `calculate_interest` takes the fatal absurd-borrow-rate
path exactly when the borrow rate strictly exceeds the implemented ceiling
mantissa `5 * 10^13` (the value of `10^16 * 5 / 1000`); at or below that
ceiling the rate guard never fires, and the computation proceeds to the
accrual arithmetic (whose own overflow traps are the distinct
`Fatal.overflow` outcome). -/
theorem calculate_interest_absurd_rate_iff (i : CalculateInterestInput) :
    calculate_interest i = Except.error Fatal.absurdRate ↔
      5 * 10 ^ 13 < i.borrow_rate := by
  rw [← borrow_rate_max_mantissa_eq]
  simp only [calculate_interest]
  split_ifs with h1 h2 h3 h4 h5 h6 h7
  all_goals simp [h1]

/-- The pure accrual computation never shrinks the borrow index. -/
theorem calculate_interest_index_mono (i : CalculateInterestInput)
    (o : CalculateInterestOutput) (h : calculate_interest i = Except.ok o) :
    i.borrow_index.mantissa ≤ o.borrow_index.mantissa := by
  simp only [calculate_interest] at h
  split_ifs at h
  obtain rfl := Except.ok.inj h
  simp only [Exp.mul_scalar_truncate_add_uint]
  exact Nat.le_add_left _ _

theorem mint_to_fields (s : State) (a amt : Nat) (s1 : State)
    (h : mint_to s a amt = some s1) :
    s1.total_borrows = s.total_borrows ∧ s1.total_reserves = s.total_reserves ∧
    s1.account_borrows = s.account_borrows ∧
    s1.accural_block_timestamp = s.accural_block_timestamp ∧
    s1.borrow_index = s.borrow_index ∧ s1.reserve_factor = s.reserve_factor ∧
    s1.events = s.events := by
  unfold mint_to at h
  repeat' split at h
  any_goals exact Option.noConfusion h
  obtain rfl := Option.some.inj h
  exact ⟨rfl, rfl, rfl, rfl, rfl, rfl, rfl⟩

theorem burn_from_fields (s : State) (a amt : Nat) (s1 : State)
    (h : burn_from s a amt = some s1) :
    s1.total_borrows = s.total_borrows ∧ s1.total_reserves = s.total_reserves ∧
    s1.account_borrows = s.account_borrows ∧
    s1.accural_block_timestamp = s.accural_block_timestamp ∧
    s1.borrow_index = s.borrow_index ∧ s1.reserve_factor = s.reserve_factor ∧
    s1.events = s.events := by
  unfold burn_from at h
  repeat' split at h
  any_goals exact Option.noConfusion h
  obtain rfl := Option.some.inj h
  exact ⟨rfl, rfl, rfl, rfl, rfl, rfl, rfl⟩

theorem _mint_inv (a : Bool) (n : Nat) (t : Bool) (m amt : Nat) (s : State)
    (r : Except Error Unit) (s2 : State)
    (h : _mint a n t m amt s = some (r, s2)) :
    s2.borrow_index = s.borrow_index ∧
      ∀ e, r = Except.error e → s2 = s := by
  unfold _mint at h
  repeat' split at h
  any_goals exact Option.noConfusion h
  · simp only [Option.some.injEq, Prod.mk.injEq] at h
    obtain ⟨rfl, rfl⟩ := h
    exact ⟨rfl, fun e he => rfl⟩
  · rename_i s1 heq
    simp only [Option.some.injEq, Prod.mk.injEq] at h
    obtain ⟨rfl, rfl⟩ := h
    exact ⟨(mint_to_fields _ _ _ _ heq).2.2.2.2.1,
      fun e he => Except.noConfusion he⟩

theorem _redeem_core_inv (a : Bool) (cash : Nat) (t : Bool)
    (rd tok amt : Nat) (s : State) (r : Except Error Unit) (s2 : State)
    (h : _redeem_core a cash t rd tok amt s = some (r, s2)) :
    s2.borrow_index = s.borrow_index ∧
      ∀ e, r = Except.error e → s2 = s := by
  unfold _redeem_core at h
  repeat' split at h
  any_goals exact Option.noConfusion h
  · simp only [Option.some.injEq, Prod.mk.injEq] at h
    obtain ⟨rfl, rfl⟩ := h
    exact ⟨rfl, fun e he => rfl⟩
  · rename_i s1 heq _
    simp only [Option.some.injEq, Prod.mk.injEq] at h
    obtain ⟨rfl, rfl⟩ := h
    exact ⟨(burn_from_fields _ _ _ _ heq).2.2.2.2.1,
      fun e he => Except.noConfusion he⟩

theorem _redeem_inv (a : Bool) (cash : Nat) (t : Bool) (rd ti ai : Nat)
    (s : State) (r : Except Error Unit) (s2 : State)
    (h : _redeem a cash t rd ti ai s = some (r, s2)) :
    s2.borrow_index = s.borrow_index ∧
      ∀ e, r = Except.error e → s2 = s := by
  unfold _redeem at h
  split at h
  · exact _redeem_core_inv _ _ _ _ _ _ _ _ _ h
  · split at h
    · exact _redeem_core_inv _ _ _ _ _ _ _ _ _ h
    · simp only [Option.some.injEq, Prod.mk.injEq] at h
      obtain ⟨rfl, rfl⟩ := h
      exact ⟨rfl, fun e he => rfl⟩

theorem _borrow_inv (a : Bool) (n cash : Nat) (t : Bool) (b amt : Nat)
    (s : State) (r : Except Error Unit) (s2 : State)
    (h : _borrow a n cash t b amt s = some (r, s2)) :
    s2.borrow_index = s.borrow_index ∧
      ∀ e, r = Except.error e → s2 = s := by
  unfold _borrow at h
  repeat' split at h
  any_goals exact Option.noConfusion h
  all_goals simp only [Option.some.injEq, Prod.mk.injEq] at h
  all_goals obtain ⟨rfl, rfl⟩ := h
  all_goals refine ⟨rfl, fun e he => ?_⟩
  any_goals rfl
  all_goals exact Except.noConfusion he

theorem _repay_borrow_tail_inv (t : Bool) (p b prev fin : Nat) (s : State)
    (r : Except Error Nat) (s2 : State)
    (h : _repay_borrow_tail t p b prev fin s = some (r, s2)) :
    s2.borrow_index = s.borrow_index ∧
      ∀ e, r = Except.error e → s2 = s := by
  unfold _repay_borrow_tail at h
  repeat' split at h
  any_goals exact Option.noConfusion h
  simp only [Option.some.injEq, Prod.mk.injEq] at h
  obtain ⟨rfl, rfl⟩ := h
  exact ⟨rfl, fun e he => Except.noConfusion he⟩

theorem _repay_borrow_inv (a : Bool) (n : Nat) (t : Bool) (p b amt : Nat)
    (s : State) (r : Except Error Nat) (s2 : State)
    (h : _repay_borrow a n t p b amt s = some (r, s2)) :
    s2.borrow_index = s.borrow_index ∧
      ∀ e, r = Except.error e → s2 = s := by
  simp only [_repay_borrow] at h
  repeat' split at h
  any_goals exact Option.noConfusion h
  · simp only [Option.some.injEq, Prod.mk.injEq] at h
    obtain ⟨rfl, rfl⟩ := h
    exact ⟨rfl, fun e he => rfl⟩
  all_goals exact _repay_borrow_tail_inv _ _ _ _ _ _ _ _ h

theorem _seize_inv (a : Bool) (sz l b tok : Nat) (s : State)
    (r : Except Error Unit) (s2 : State)
    (h : _seize a sz l b tok s = some (r, s2)) :
    s2.borrow_index = s.borrow_index ∧
      ∀ e, r = Except.error e → s2 = s := by
  simp only [_seize] at h
  split at h
  · exact Option.noConfusion h
  split at h
  · simp only [Option.some.injEq, Prod.mk.injEq] at h
    obtain ⟨rfl, rfl⟩ := h
    exact ⟨rfl, fun e he => rfl⟩
  split at h
  · exact Option.noConfusion h
  split at h
  · exact Option.noConfusion h
  next sA hburn =>
    split at h
    · exact Option.noConfusion h
    next sB hmint =>
      simp only [Option.some.injEq, Prod.mk.injEq] at h
      obtain ⟨rfl, rfl⟩ := h
      refine ⟨?_, fun e he => Except.noConfusion he⟩
      show sB.borrow_index = s.borrow_index
      rw [(mint_to_fields _ _ _ _ hmint).2.2.2.2.1,
        (burn_from_fields _ _ _ _ hburn).2.2.2.2.1]

theorem _liquidate_borrow_inv (la ra sa : Bool) (n cts : Nat) (t : Bool)
    (l b amt : Nat) (sc : Bool) (coll : Nat) (pk : Bool) (s : State)
    (r : Except Error Unit) (s2 : State)
    (h : _liquidate_borrow la ra sa n cts t l b amt sc coll pk s =
      some (r, s2)) :
    s2.borrow_index = s.borrow_index ∧
      ∀ e, r = Except.error e → s2 = s := by
  simp only [_liquidate_borrow] at h
  split at h
  · exact Option.noConfusion h
  split at h
  · simp only [Option.some.injEq, Prod.mk.injEq] at h
    obtain ⟨rfl, rfl⟩ := h
    exact ⟨rfl, fun e he => rfl⟩
  split at h
  · simp only [Option.some.injEq, Prod.mk.injEq] at h
    obtain ⟨rfl, rfl⟩ := h
    exact ⟨rfl, fun e he => rfl⟩
  split at h
  · simp only [Option.some.injEq, Prod.mk.injEq] at h
    obtain ⟨rfl, rfl⟩ := h
    exact ⟨rfl, fun e he => rfl⟩
  split at h
  · simp only [Option.some.injEq, Prod.mk.injEq] at h
    obtain ⟨rfl, rfl⟩ := h
    exact ⟨rfl, fun e he => rfl⟩
  split at h
  · exact Option.noConfusion h
  · exact Option.noConfusion h
  next actual s1 hrep =>
    split at h
    · split at h
      · exact Option.noConfusion h
      · exact Option.noConfusion h
      next u sA hseize =>
        simp only [Option.some.injEq, Prod.mk.injEq] at h
        obtain ⟨rfl, rfl⟩ := h
        refine ⟨?_, fun e he => Except.noConfusion he⟩
        show sA.borrow_index = s.borrow_index
        rw [(_seize_inv _ _ _ _ _ _ _ _ hseize).1,
          (_repay_borrow_inv _ _ _ _ _ _ _ _ _ hrep).1]
    · split at h
      · exact Option.noConfusion h
      · simp only [Option.some.injEq, Prod.mk.injEq] at h
        obtain ⟨rfl, rfl⟩ := h
        refine ⟨?_, fun e he => Except.noConfusion he⟩
        show s1.borrow_index = s.borrow_index
        exact (_repay_borrow_inv _ _ _ _ _ _ _ _ _ hrep).1


/-- Inversion for a dispatched ledger operation: the borrow index is never
written by a ledger operation, and an error return leaves the state
untouched. -/
theorem runOp_inv (c : PoolOp) (s : State) (r : Except Error Unit)
    (s2 : State) (h : runOp c s = some (r, s2)) :
    s2.borrow_index = s.borrow_index ∧
      ∀ e, r = Except.error e → s2 = s := by
  cases c with
  | mint a n t m amt => exact _mint_inv a n t m amt s r s2 h
  | redeem a cash t rd ti ai => exact _redeem_inv a cash t rd ti ai s r s2 h
  | borrow a n cash t b amt => exact _borrow_inv a n cash t b amt s r s2 h
  | repay a n t p b amt =>
    simp only [runOp, Option.map_eq_some'] at h
    obtain ⟨⟨r0, s3⟩, hrep, hmap⟩ := h
    obtain ⟨h1, h2⟩ := Prod.mk.inj hmap
    subst h1
    subst h2
    obtain ⟨hbi, herr⟩ := _repay_borrow_inv a n t p b amt s r0 s3 hrep
    refine ⟨hbi, fun e he => ?_⟩
    cases r0 with
    | ok v => exact Except.noConfusion he
    | error e0 => exact herr e0 rfl
  | liquidate la ra sa n cts t l b amt sc coll pk =>
    exact _liquidate_borrow_inv la ra sa n cts t l b amt sc coll pk s r s2 h
  | seize a sz l b tok => exact _seize_inv a sz l b tok s r s2 h

/-- One machine step never shrinks the borrow index. -/
theorem runStep_borrow_index_mono (st : Step) (s s2 : State)
    (h : runStep st s = some s2) : s.borrow_index ≤ s2.borrow_index := by
  cases st with
  | accrue rate t =>
    simp only [runStep, _accure_interest_at] at h
    split at h
    · obtain rfl := Option.some.inj h
      exact Nat.le_refl _
    · split at h
      · exact Option.noConfusion h
      · rename_i o heq
        obtain rfl := Option.some.inj h
        exact calculate_interest_index_mono _ _ heq
  | op c =>
    simp only [runStep, Option.map_eq_some'] at h
    obtain ⟨⟨r, s3⟩, hrun, rfl⟩ := h
    exact Nat.le_of_eq ((runOp_inv c s r s3 hrun).1).symm

/-- C3 (counterexample): the storage struct produced by `Data::default()`
has `borrow_index` equal to `U256::zero()`, not to the fixed-point
representation of 1.0 (`10^18`). -/
theorem data_default_borrow_index_cex :
    Data.default.borrow_index ≠ 10 ^ 18 := by
  decide

/-- C3 (amended): the default-constructed pool storage starts with
`borrow_index = 0` (not `10^18`), and the borrow index is monotonically
non-decreasing across every subsequent accrual and ledger operation. -/
theorem borrow_index_init_zero_and_mono :
    Data.default.borrow_index = 0 ∧
    ∀ st s s2, runStep st s = some s2 → s.borrow_index ≤ s2.borrow_index :=
  ⟨rfl, fun st s s2 h => runStep_borrow_index_mono st s s2 h⟩

/-- C3 (witness): a concrete accrual from timestamp 5 to 6 on `staleState`
does not decrease the borrow index. -/
theorem borrow_index_init_zero_and_mono_witness :
    staleState.borrow_index ≤
      (stepOut (Step.accrue (10 ^ 13) 6) staleState).borrow_index :=
  borrow_index_init_zero_and_mono.2 (Step.accrue (10 ^ 13) 6) staleState
    (stepOut (Step.accrue (10 ^ 13) 6) staleState) (by rfl)

/-- The shared redeem tail can fail with the liquidity error or trap, but
never with `InvalidParameter`. -/
theorem _redeem_core_not_invalid (a : Bool) (cash : Nat) (t : Bool)
    (redeemer tok amt : Nat) (s : State) :
    ((_redeem_core a cash t redeemer tok amt s).map Prod.fst) ≠
      some (Except.error Error.InvalidParameter) := by
  intro hEq
  simp only [_redeem_core] at hEq
  repeat' split at hEq
  all_goals simp_all

/-- C4 (counterexample): with both selectors positive (`tokens_in = 1`,
`amount_in = 1`) redeem does not fail with `InvalidParameter`: the first
match arm wins and the call succeeds on `baseState`. -/
theorem redeem_both_positive_cex :
    (_redeem true 100 true 3 1 1 baseState).map Prod.fst =
      some (Except.ok ()) := by
  rfl

/-- C4 (amended): redeem fails with `InvalidParameter` exactly when neither
selector is positive; when both are positive the `tokens_in` arm wins and
no `InvalidParameter` error is produced. -/
theorem redeem_invalid_parameter_iff (a : Bool) (cash : Nat) (t : Bool)
    (redeemer tokensIn amountIn : Nat) (s : State) :
    ((_redeem a cash t redeemer tokensIn amountIn s).map Prod.fst =
      some (Except.error Error.InvalidParameter)) ↔
      (tokensIn = 0 ∧ amountIn = 0) := by
  unfold _redeem
  split
  · next h =>
    constructor
    · intro hEq
      exact absurd hEq (_redeem_core_not_invalid _ _ _ _ _ _ _)
    · intro hc
      exact absurd h (by omega)
  · split
    · next h =>
      constructor
      · intro hEq
        exact absurd hEq (_redeem_core_not_invalid _ _ _ _ _ _ _)
      · intro hc
        exact absurd h (by omega)
    · next h1 h2 =>
      constructor
      · intro _
        omega
      · intro _
        rfl

/-- C9: whenever the accrual computation completes, the new total borrows
equal the old total borrows plus the interest accumulated, exactly; and the
interest accumulated is the single-truncation fixed-point product of the
borrow rate, the elapsed time and the total borrows. -/
theorem calculate_interest_conservation (i : CalculateInterestInput)
    (o : CalculateInterestOutput) (h : calculate_interest i = Except.ok o) :
    o.total_borrows = i.total_borrows + o.interest_accumulated ∧
    o.interest_accumulated =
      i.borrow_rate * tsAbsDiff i.new_block_timestamp i.old_block_timestamp *
        i.total_borrows / expScale := by
  simp only [calculate_interest] at h
  split_ifs at h
  obtain rfl := Except.ok.inj h
  exact ⟨Nat.add_comm _ _, rfl⟩

/-- C9 (witness): the conservation equations at the concrete one-tick
input. -/
theorem calculate_interest_conservation_witness :
    ((calculate_interest tickInput).toOption.getD
        ⟨⟨0⟩, 0, 0, 0⟩).total_borrows =
      tickInput.total_borrows +
        ((calculate_interest tickInput).toOption.getD
          ⟨⟨0⟩, 0, 0, 0⟩).interest_accumulated ∧
    ((calculate_interest tickInput).toOption.getD
        ⟨⟨0⟩, 0, 0, 0⟩).interest_accumulated =
      tickInput.borrow_rate *
        tsAbsDiff tickInput.new_block_timestamp tickInput.old_block_timestamp *
        tickInput.total_borrows / expScale :=
  calculate_interest_conservation tickInput _ rfl

/-- C8: a no-elapsed-time accrual is the identity: the pure computation
returns its inputs unchanged with zero interest accumulated (for inputs
within the rate ceiling and the machine ranges), and the stateful accrual
step short-circuits, leaving the pool state unchanged. -/
theorem accrual_no_elapsed_identity (i : CalculateInterestInput)
    (rate t : Nat) (s : State)
    (heq : i.old_block_timestamp = i.new_block_timestamp)
    (hrate : i.borrow_rate ≤ borrow_rate_max_mantissa)
    (htb : i.total_borrows ≤ u128Max)
    (hres : i.total_reserves ≤ u128Max)
    (hidx : i.borrow_index.mantissa ≤ u256Max)
    (hts : s.accural_block_timestamp = t) :
    calculate_interest i = Except.ok
      { borrow_index := i.borrow_index
        total_borrows := i.total_borrows
        total_reserves := i.total_reserves
        interest_accumulated := 0 } ∧
    _accure_interest_at rate t s = some s := by
  constructor
  · have hd : tsAbsDiff i.new_block_timestamp i.old_block_timestamp = 0 := by
      unfold tsAbsDiff
      omega
    simp only [calculate_interest, hd, Exp.mul_mantissa,
      Exp.mul_scalar_truncate, Exp.mul_scalar_truncate_add_uint,
      Nat.mul_zero, Nat.zero_mul, Nat.zero_div, Nat.zero_add, Nat.add_zero,
      Nat.mul_one]
    rw [if_neg (Nat.not_lt.mpr hrate), if_neg (by simp [u128Max]),
      if_neg (Nat.not_lt.mpr htb), if_neg (by simp [u256Max]),
      if_neg (Nat.not_lt.mpr hres), if_neg (by simp [u256Max]),
      if_neg (Nat.not_lt.mpr hidx)]
  · unfold _accure_interest_at
    simp [hts]

/-- C8 (witness): the identity accrual at the concrete no-elapsed-time
input `idleInput` and the short-circuit on `baseState` at timestamp 0. -/
theorem accrual_no_elapsed_identity_witness :
    calculate_interest idleInput = Except.ok
      { borrow_index := idleInput.borrow_index
        total_borrows := idleInput.total_borrows
        total_reserves := idleInput.total_reserves
        interest_accumulated := 0 } ∧
    _accure_interest_at 0 0 baseState = some baseState :=
  accrual_no_elapsed_identity idleInput 0 0 baseState rfl (by decide)
    (by decide) (by decide) (by decide) rfl

/-- C1: for every pool ledger operation (mint, redeem, borrow,
repay_borrow, liquidate_borrow, seize) and every starting state, if the
operation returns an error then the entire observable pool state — total
borrows, total reserves, borrow index, accrual timestamp, every borrow
snapshot, the claim-token ledger, and the event trace — equals the state
before the call: every guard failure returns before any state mutation, so
no partial ledger write is observable (external traps revert wholesale and
return no error at all). -/
theorem pool_ops_error_atomic (c : PoolOp) (s : State) (e : Error)
    (s2 : State) (h : runOp c s = some (Except.error e, s2)) : s2 = s :=
  (runOp_inv c s (Except.error e) s2 h).2 e rfl

/-- C1 (witness): a borrow rejected for insufficient cash on `baseState`
leaves the state exactly `baseState`. -/
theorem pool_ops_error_atomic_witness :
    runOp (PoolOp.borrow true 0 0 true 4 5) baseState =
      some (Except.error Error.BorrowCashNotAvailable, baseState) ∧
    baseState = baseState :=
  ⟨by rfl, pool_ops_error_atomic (PoolOp.borrow true 0 0 true 4 5) baseState
    Error.BorrowCashNotAvailable baseState (by rfl)⟩

/-- C7 (counterexample): with `liquidator == borrower` but a stale accrual
timestamp (pool at 5, block time 6), liquidation fails with
`AccrualBlockNumberIsNotFresh`, not with `LiquidateLiquidatorIsBorrower` —
so the claimed error does not hold for every market state. -/
theorem liquidate_self_stale_cex :
    _liquidate_borrow true true true 6 6 true 3 3 1 true 0 true staleState =
      some (Except.error Error.AccrualBlockNumberIsNotFresh, staleState) ∧
    Error.AccrualBlockNumberIsNotFresh ≠
      Error.LiquidateLiquidatorIsBorrower :=
  ⟨by rfl, by decide⟩

/-- C7 (amended): whenever the policy authority approves the call and both
freshness checks pass, `liquidate_borrow` with `liquidator == borrower`
fails with `LiquidateLiquidatorIsBorrower`, for every repay amount and
every remaining state. -/
theorem liquidate_self_always_rejected (ra sa : Bool) (now cts : Nat)
    (t : Bool) (liq repayAmount : Nat) (sc : Bool) (coll : Nat) (pk : Bool)
    (s : State) (hfresh : s.accural_block_timestamp = now)
    (hcts : cts = now) :
    _liquidate_borrow true ra sa now cts t liq liq repayAmount sc coll pk s =
      some (Except.error Error.LiquidateLiquidatorIsBorrower, s) := by
  unfold _liquidate_borrow
  rw [if_neg (by simp), if_neg (by simp [hfresh]), if_neg (by simp [hcts]),
    if_pos rfl]

/-- C7 (witness): the self-liquidation rejection at a concrete fresh
state. -/
theorem liquidate_self_always_rejected_witness :
    _liquidate_borrow true true true 0 0 true 3 3 1 true 0 true baseState =
      some (Except.error Error.LiquidateLiquidatorIsBorrower, baseState) :=
  liquidate_self_always_rejected true true 0 0 true 3 1 true 0 true
    baseState rfl rfl

/-- C6 (counterexample): with a current debt of 2 (account 7 of
`debtState`) and a requested repay amount of 3 — not the MAX sentinel and
strictly above the debt — `_repay_borrow` traps on the underflowing `u128`
subtraction (the whole call aborts); it is not rejected with a recoverable
error value as the claim states. -/
theorem repay_over_debt_cex :
    _repay_borrow true 0 true 9 7 3 debtState = none := by
  rfl

/-- C6 (amended): a non-sentinel repay amount strictly above the current
debt makes `_repay_borrow` trap on the underflowing checked subtraction
(aborting the transaction before any observable state change, but as a
trap, not as a returned error); with the `u128::MAX` sentinel the
effective amount repaid is capped at exactly the current debt. -/
theorem repay_over_debt_and_max_sentinel (now payer borrower amount d : Nat)
    (s : State) (hfresh : s.accural_block_timestamp = now)
    (hd : _borrow_balance_stored s borrower = some d) :
    (amount ≠ u128Max → d < amount →
      _repay_borrow true now true payer borrower amount s = none) ∧
    (d ≤ s.total_borrows →
      (_repay_borrow true now true payer borrower u128Max s).map Prod.fst =
        some (Except.ok d)) := by
  constructor
  · intro hmax hlt
    simp [_repay_borrow, _repay_borrow_tail, hfresh, hd, hmax, hlt]
  · intro hle
    simp [_repay_borrow, _repay_borrow_tail, hfresh, hd,
      Nat.not_lt.mpr hle]

/-- C6 (witness): on `debtState` (debt 2), repaying 3 traps, while the MAX
sentinel repays exactly 2. -/
theorem repay_over_debt_and_max_sentinel_witness :
    (_repay_borrow true 0 true 9 7 3 debtState = none) ∧
    ((_repay_borrow true 0 true 9 7 u128Max debtState).map Prod.fst =
      some (Except.ok 2)) :=
  ⟨(repay_over_debt_and_max_sentinel 0 9 7 3 2 debtState rfl (by rfl)).1
      (by decide) (by decide),
    (repay_over_debt_and_max_sentinel 0 9 7 3 2 debtState rfl (by rfl)).2
      (by decide)⟩

theorem _repay_borrow_tail_success_shape (t : Bool) (p b prev fin : Nat)
    (s : State) (v : Nat) (s2 : State)
    (h : _repay_borrow_tail t p b prev fin s = some (Except.ok v, s2)) :
    v = fin ∧ s2.claim_balances = s.claim_balances ∧
    s2.claim_supply = s.claim_supply ∧
    s2.events = Event.repayBorrowEv p b fin (prev - fin)
      (s.total_borrows - fin) :: s.events := by
  simp only [_repay_borrow_tail] at h
  repeat' split at h
  any_goals exact Option.noConfusion h
  simp only [Option.some.injEq, Prod.mk.injEq] at h
  obtain ⟨h1, rfl⟩ := h
  obtain rfl := Except.ok.inj h1
  exact ⟨rfl, rfl, rfl, rfl⟩

theorem _repay_borrow_success_shape (a : Bool) (n : Nat) (t : Bool)
    (p b amt : Nat) (s : State) (v : Nat) (s2 : State)
    (h : _repay_borrow a n t p b amt s = some (Except.ok v, s2)) :
    s2.claim_balances = s.claim_balances ∧ s2.claim_supply = s.claim_supply ∧
    ∃ ab tb, s2.events = Event.repayBorrowEv p b v ab tb :: s.events := by
  simp only [_repay_borrow] at h
  repeat' split at h
  any_goals exact Option.noConfusion h
  · simp only [Option.some.injEq, Prod.mk.injEq] at h
    obtain ⟨h1, -⟩ := h
    exact Except.noConfusion h1
  all_goals
    obtain ⟨hv, h2, h3, h4⟩ :=
      _repay_borrow_tail_success_shape _ _ _ _ _ _ _ _ h
  all_goals subst hv
  all_goals exact ⟨h2, h3, _, _, h4⟩

theorem burn_from_values (s : State) (acc amt : Nat) (s1 : State)
    (h : burn_from s acc amt = some s1) :
    (∀ x, s1.claim_balances x =
      if x = acc then s.claim_balances acc - amt else s.claim_balances x) ∧
    s1.claim_supply = s.claim_supply - amt := by
  simp only [burn_from] at h
  repeat' split at h
  any_goals exact Option.noConfusion h
  obtain rfl := Option.some.inj h
  exact ⟨fun x => rfl, rfl⟩

theorem mint_to_values (s : State) (acc amt : Nat) (s1 : State)
    (h : mint_to s acc amt = some s1) :
    (∀ x, s1.claim_balances x =
      if x = acc then s.claim_balances acc + amt else s.claim_balances x) ∧
    s1.claim_supply = s.claim_supply + amt := by
  simp only [mint_to] at h
  repeat' split at h
  any_goals exact Option.noConfusion h
  obtain rfl := Option.some.inj h
  exact ⟨fun x => rfl, rfl⟩

theorem _seize_zero_shape (a : Bool) (sz l b : Nat) (s : State) (s2 : State)
    (h : _seize a sz l b 0 s = some (Except.ok (), s2)) :
    (∀ x, s2.claim_balances x = s.claim_balances x) ∧
    s2.claim_supply = s.claim_supply ∧
    ∃ amt ntr, s2.events = Event.reservesAddedEv sz amt ntr :: s.events := by
  simp only [_seize] at h
  split at h
  · exact Option.noConfusion h
  split at h
  · simp only [Option.some.injEq, Prod.mk.injEq] at h
    obtain ⟨h1, -⟩ := h
    exact Except.noConfusion h1
  split at h
  · exact Option.noConfusion h
  split at h
  · exact Option.noConfusion h
  next sA hburn =>
    split at h
    · exact Option.noConfusion h
    next sB hmint =>
      simp only [Option.some.injEq, Prod.mk.injEq] at h
      obtain ⟨-, rfl⟩ := h
      obtain ⟨hbalB, hsupB⟩ := burn_from_values _ _ _ _ hburn
      obtain ⟨hbalM, hsupM⟩ := mint_to_values _ _ _ _ hmint
      have hevB := (burn_from_fields _ _ _ _ hburn).2.2.2.2.2.2
      have hevM := (mint_to_fields _ _ _ _ hmint).2.2.2.2.2.2
      refine ⟨?_, ?_, 0 * 1, s.total_reserves + 0 * 1, ?_⟩
      · intro x
        show sB.claim_balances x = s.claim_balances x
        simp only [hbalM, hbalB]
        split_ifs <;> simp_all
      · show sB.claim_supply = s.claim_supply
        rw [hsupM, hsupB]
        simp
      · show Event.reservesAddedEv sz (0 * 1) (s.total_reserves + 0 * 1) ::
          sB.events = Event.reservesAddedEv sz (0 * 1)
            (s.total_reserves + 0 * 1) :: s.events
        simp only [hevM, hevB]

/-- C10: every successful `liquidate_borrow` performs its seizure step
with a hard-coded seize amount of 0 — locally (burning 0 from the borrower
and minting 0 to the liquidator, so the claim-token ledger is unchanged)
or delegated to the peer pool (the outbound seize call carries 0) — and
the LiquidateBorrow event always carries a seize amount of 0. -/
theorem liquidate_seize_zero (la ra sa : Bool) (now cts : Nat) (t : Bool)
    (liq bor amt : Nat) (sc : Bool) (coll : Nat) (pk : Bool) (s s2 : State)
    (h : _liquidate_borrow la ra sa now cts t liq bor amt sc coll pk s =
      some (Except.ok (), s2)) :
    (∀ x, s2.claim_balances x = s.claim_balances x) ∧
    s2.claim_supply = s.claim_supply ∧
    (∃ rp, s2.events.head? =
      some (Event.liquidateBorrowEv liq bor rp coll 0)) ∧
    (∀ l2 b2 z, Event.seizeCallEv l2 b2 z ∈ s2.events →
      Event.seizeCallEv l2 b2 z ∈ s.events ∨ z = 0) := by
  simp only [_liquidate_borrow] at h
  split at h
  · exact Option.noConfusion h
  split at h
  · simp only [Option.some.injEq, Prod.mk.injEq] at h
    obtain ⟨h1, -⟩ := h
    exact Except.noConfusion h1
  split at h
  · simp only [Option.some.injEq, Prod.mk.injEq] at h
    obtain ⟨h1, -⟩ := h
    exact Except.noConfusion h1
  split at h
  · simp only [Option.some.injEq, Prod.mk.injEq] at h
    obtain ⟨h1, -⟩ := h
    exact Except.noConfusion h1
  split at h
  · simp only [Option.some.injEq, Prod.mk.injEq] at h
    obtain ⟨h1, -⟩ := h
    exact Except.noConfusion h1
  split at h
  · exact Option.noConfusion h
  · exact Option.noConfusion h
  next actual s1 hrep =>
    obtain ⟨hRb, hRs, ab, tb, hRe⟩ :=
      _repay_borrow_success_shape _ _ _ _ _ _ _ _ _ hrep
    split at h
    · split at h
      · exact Option.noConfusion h
      · exact Option.noConfusion h
      next u sA hseize =>
        obtain ⟨hSb, hSs, amt2, ntr, hSe⟩ :=
          _seize_zero_shape _ _ _ _ _ _ hseize
        simp only [Option.some.injEq, Prod.mk.injEq] at h
        obtain ⟨-, rfl⟩ := h
        refine ⟨?_, ?_, ⟨actual, rfl⟩, ?_⟩
        · intro x
          show sA.claim_balances x = s.claim_balances x
          rw [hSb x, hRb]
        · show sA.claim_supply = s.claim_supply
          rw [hSs, hRs]
        · intro l2 b2 z hz
          show _ ∨ _
          have hz2 : Event.seizeCallEv l2 b2 z ∈
              Event.liquidateBorrowEv liq bor actual coll 0 ::
                Event.reservesAddedEv coll amt2 ntr ::
                  Event.repayBorrowEv liq bor actual ab tb :: s.events := by
            simpa [hSe, hRe] using hz
          simp only [List.mem_cons] at hz2
          rcases hz2 with h1 | h1 | h1 | h1
          · exact Event.noConfusion h1
          · exact Event.noConfusion h1
          · exact Event.noConfusion h1
          · exact Or.inl h1
    · split at h
      · exact Option.noConfusion h
      · simp only [Option.some.injEq, Prod.mk.injEq] at h
        obtain ⟨-, rfl⟩ := h
        refine ⟨?_, ?_, ⟨actual, rfl⟩, ?_⟩
        · intro x
          show s1.claim_balances x = s.claim_balances x
          rw [hRb]
        · show s1.claim_supply = s.claim_supply
          rw [hRs]
        · intro l2 b2 z hz
          show _ ∨ _
          have hz2 : Event.seizeCallEv l2 b2 z ∈
              Event.liquidateBorrowEv liq bor actual coll 0 ::
                Event.seizeCallEv liq bor 0 ::
                  Event.repayBorrowEv liq bor actual ab tb :: s.events := by
            simpa [hRe] using hz
          simp only [List.mem_cons] at hz2
          rcases hz2 with h1 | h1 | h1 | h1
          · exact Event.noConfusion h1
          · obtain ⟨rfl, rfl, rfl⟩ := Event.seizeCallEv.inj h1
            exact Or.inr rfl
          · exact Event.noConfusion h1
          · exact Or.inl h1

/-- C10 (witness): a concrete successful local-collateral liquidation on
`snapState` leaves claim balances and supply untouched and reports a
seize amount of 0. -/
theorem liquidate_seize_zero_witness :
    (∀ x, liqOut.claim_balances x = snapState.claim_balances x) ∧
    liqOut.claim_supply = snapState.claim_supply ∧
    (∃ rp, liqOut.events.head? =
      some (Event.liquidateBorrowEv 1 7 rp 0 0)) ∧
    (∀ l2 b2 z, Event.seizeCallEv l2 b2 z ∈ liqOut.events →
      Event.seizeCallEv l2 b2 z ∈ snapState.events ∨ z = 0) :=
  liquidate_seize_zero true true true 0 0 true 1 7 1 true 0 true snapState
    liqOut (by rfl)

/-- Inversion of a successful `_borrow_balance_stored` on a snapshot whose
recorded index equals the current borrow index: the value is the stored
principal, and the computation's side conditions hold. -/
theorem bbs_fresh_facts (s : State) (b p v : Nat)
    (hsnap : s.account_borrows b = some ⟨p, s.borrow_index⟩)
    (h : _borrow_balance_stored s b = some v) :
    v = p ∧ (p = 0 ∨ (s.borrow_index ≠ 0 ∧ p * s.borrow_index ≤ u256Max ∧
      p ≤ u128Max)) := by
  simp only [_borrow_balance_stored, hsnap] at h
  split at h
  · next hp0 =>
    obtain rfl := Option.some.inj h
    exact ⟨hp0.symm, Or.inl hp0⟩
  next hp0 =>
  split at h
  · exact Option.noConfusion h
  next hov =>
  split at h
  · exact Option.noConfusion h
  next hi =>
  split at h
  · exact Option.noConfusion h
  next hv =>
  obtain rfl := Option.some.inj h
  have hcanc : p * s.borrow_index / s.borrow_index = p :=
    Nat.mul_div_cancel p (Nat.pos_of_ne_zero hi)
  refine ⟨hcanc, Or.inr ⟨hi, Nat.not_lt.mp hov, ?_⟩⟩
  rw [← hcanc]
  exact Nat.not_lt.mp hv

/-- Evaluation of `_borrow_balance_stored` on a snapshot whose recorded
index equals the current borrow index. -/
theorem bbs_of_fresh (s : State) (b p : Nat)
    (hsnap : s.account_borrows b = some ⟨p, s.borrow_index⟩)
    (hcase : p = 0 ∨ (s.borrow_index ≠ 0 ∧ p * s.borrow_index ≤ u256Max ∧
      p ≤ u128Max)) :
    _borrow_balance_stored s b = some p := by
  simp only [_borrow_balance_stored, hsnap]
  rcases hcase with rfl | ⟨hi, hov, hp⟩
  · simp
  · split
    · next hp0 => rw [hp0]
    · next hp0 =>
      have hcanc : p * s.borrow_index / s.borrow_index = p :=
        Nat.mul_div_cancel p (Nat.pos_of_ne_zero hi)
      simp [Nat.not_lt.mpr hov, hi, hcanc, Nat.not_lt.mpr hp]

/-- C5 (amended): a successful borrow of a non-sentinel `amount`
immediately followed (same timestamp, no intervening accrual) by a
successful repay of the same `amount` restores `total_borrows` exactly,
stores as the final snapshot principal exactly the account's pre-borrow
current debt, and restores the account's current debt
(`_borrow_balance_stored`) to its pre-borrow value. -/
theorem borrow_repay_roundtrip (a1 a2 : Bool) (now cash : Nat) (t1 t2 : Bool)
    (payer borrower amount : Nat) (s s1 s2 : State) (rp : Nat)
    (hmax : amount ≠ u128Max)
    (hb : _borrow a1 now cash t1 borrower amount s = some (Except.ok (), s1))
    (hr : _repay_borrow a2 now t2 payer borrower amount s1 =
      some (Except.ok rp, s2)) :
    s2.total_borrows = s.total_borrows ∧
    (s2.account_borrows borrower).map BorrowSnapshot.principal =
      _borrow_balance_stored s borrower ∧
    _borrow_balance_stored s2 borrower = _borrow_balance_stored s borrower := by
  simp only [_borrow] at hb
  split at hb
  · exact Option.noConfusion hb
  split at hb
  · simp only [Option.some.injEq, Prod.mk.injEq] at hb
    obtain ⟨h1, -⟩ := hb
    exact Except.noConfusion h1
  next hfr =>
  split at hb
  · simp only [Option.some.injEq, Prod.mk.injEq] at hb
    obtain ⟨h1, -⟩ := hb
    exact Except.noConfusion h1
  split at hb
  · exact Option.noConfusion hb
  next prev hprev =>
  split at hb
  · exact Option.noConfusion hb
  next hov1 =>
  split at hb
  · exact Option.noConfusion hb
  next hov2 =>
  split at hb
  · exact Option.noConfusion hb
  next ht1 =>
  simp only [Option.some.injEq, Prod.mk.injEq] at hb
  obtain ⟨-, hs1⟩ := hb
  have hab : s1.account_borrows = setSnap s.account_borrows borrower
      ⟨prev + amount, s.borrow_index⟩ := by
    rw [← hs1]
  have htb : s1.total_borrows = s.total_borrows + amount := by
    rw [← hs1]
  have hts : s1.accural_block_timestamp = s.accural_block_timestamp := by
    rw [← hs1]
  have hbi : s1.borrow_index = s.borrow_index := by
    rw [← hs1]
  simp only [_repay_borrow] at hr
  cases a2 with
  | false =>
    rw [if_pos rfl] at hr
    exact Option.noConfusion hr
  | true =>
  rw [if_neg (by simp)] at hr
  have hfr1 : ¬s1.accural_block_timestamp ≠ now := by
    rw [hts]
    exact hfr
  rw [if_neg hfr1] at hr
  rcases hE : _borrow_balance_stored s1 borrower with _ | prev2
  all_goals simp only [hE] at hr
  · exact Option.noConfusion hr
  rw [if_neg hmax] at hr
  have hsnap1 : s1.account_borrows borrower =
      some ⟨prev + amount, s1.borrow_index⟩ := by
    rw [hab, hbi]
    simp [setSnap]
  obtain ⟨hp2, hcase⟩ := bbs_fresh_facts s1 borrower (prev + amount) prev2
    hsnap1 hE
  subst hp2
  simp only [_repay_borrow_tail] at hr
  cases t2 with
  | false =>
    rw [if_pos rfl] at hr
    exact Option.noConfusion hr
  | true =>
  rw [if_neg (by simp)] at hr
  split at hr
  · exact Option.noConfusion hr
  next hlt =>
  split at hr
  · exact Option.noConfusion hr
  next hlt2 =>
  simp only [Option.some.injEq, Prod.mk.injEq] at hr
  obtain ⟨hrp, hs2⟩ := hr
  have h2ab : s2.account_borrows = setSnap s1.account_borrows borrower
      ⟨prev + amount - amount, s1.borrow_index⟩ := by
    rw [← hs2]
  have h2tb : s2.total_borrows = s1.total_borrows - amount := by
    rw [← hs2]
  have h2bi : s2.borrow_index = s1.borrow_index := by
    rw [← hs2]
  refine ⟨?_, ?_, ?_⟩
  · rw [h2tb, htb]
    omega
  · rw [h2ab, hprev]
    simp [setSnap, Nat.add_sub_cancel]
  · have hsnap2 : s2.account_borrows borrower =
        some ⟨prev + amount - amount, s2.borrow_index⟩ := by
      rw [h2ab, h2bi]
      simp [setSnap]
    have h3 : _borrow_balance_stored s2 borrower =
        some (prev + amount - amount) := by
      apply bbs_of_fresh s2 borrower _ hsnap2
      rw [h2bi]
      rcases hcase with hz | ⟨hi, hov, hp⟩
      · exact Or.inl (by omega)
      · exact Or.inr ⟨hi,
          le_trans (Nat.mul_le_mul_right _ (Nat.sub_le _ _)) hov,
          le_trans (Nat.sub_le _ _) hp⟩
    rw [h3, hprev]
    simp [Nat.add_sub_cancel]

/-- C5 (counterexample): on `snapState`, whose account-7 snapshot
(principal 1, recorded index 1.0) is stale against the current borrow
index 2.0, borrowing 1 and immediately repaying 1 at the same timestamp
succeeds but leaves the stored snapshot principal at 2, not at its
pre-borrow value 1. -/
theorem borrow_repay_principal_cex :
    _borrow true 0 50 true 7 1 snapState = some (Except.ok (), cexState1) ∧
    _repay_borrow true 0 true 7 7 1 cexState1 =
      some (Except.ok 1, cexState2) ∧
    (cexState2.account_borrows 7).map BorrowSnapshot.principal ≠
      (snapState.account_borrows 7).map BorrowSnapshot.principal :=
  ⟨by rfl, by rfl, by decide⟩

/-- C5 (witness): a fresh account borrowing 5 and repaying 5 on
`baseState` restores total borrows, snapshot principal and current debt. -/
theorem borrow_repay_roundtrip_witness :
    rtState2.total_borrows = baseState.total_borrows ∧
    (rtState2.account_borrows 4).map BorrowSnapshot.principal =
      _borrow_balance_stored baseState 4 ∧
    _borrow_balance_stored rtState2 4 = _borrow_balance_stored baseState 4 :=
  borrow_repay_roundtrip true true 0 100 true true 4 4 5 baseState rtState1
    rtState2 5 (by decide) (by rfl) (by rfl)

end Starlay
